import Mathlib

/-!
Verification development for the CloudPulse repository.

This file gives a shallow embedding, in Lean 4, of the pure request-building
and state-updating logic of the CloudPulse client code:

* the TypeScript SDK (`sdks/cloudpulse-ts/src/index.ts`),
* the JavaScript SDK (the unnamed `CloudPulseClient` / `Resource` module),
* the Go SDK (`sdks/cloudpulse-go/cloudpulse/client.go`),
* the React frontend (`Budgets.jsx`, the anomalies page, `AuthContext.jsx`,
  the `api/client` module),
* the MCP server (`tools/cloudpulse-mcp-server/src/index.ts`),

and proves theorems about the behaviour of that code.  JavaScript numbers
are modelled as rationals (for the budget and anomaly arithmetic) or
integers (for page and limit parameters); JavaScript values that can be a
string, a number, null or undefined are modelled by the inductive `JsVal`.
-/

namespace CloudPulse

/-- Model of a JavaScript value that may appear as a query-parameter value:
a string, a number, `null`, or `undefined` (an absent or explicitly
undefined property). -/
inductive JsVal where
  | vundef
  | vnull
  | vstr (s : String)
  | vnum (n : Int)
deriving DecidableEq, Repr

/-- Model of the JavaScript `String(v)` coercion on a `JsVal`. -/
def jsStringOf : JsVal → String
  | JsVal.vundef => "undefined"
  | JsVal.vnull => "null"
  | JsVal.vstr s => s
  | JsVal.vnum n => toString n

/-- Uppercase hexadecimal digit, used by the percent-encoder. -/
def hexDigit (n : Nat) : Char :=
  if n < 10 then Char.ofNat (48 + n) else Char.ofNat (55 + n)

/-- Percent-encoding of one byte, as in `URLSearchParams` serialization. -/
def percentByte (b : UInt8) : String :=
  "%" ++ String.singleton (hexDigit (b.toNat / 16)) ++ String.singleton (hexDigit (b.toNat % 16))

/-- Model of the `application/x-www-form-urlencoded` encoding of one
character used by the platform `URLSearchParams.toString` (and by Go's
`url.Values.Encode`): alphanumerics and a few safe characters pass through,
a space becomes a plus sign, and every other character is percent-encoded
byte by byte. -/
def encodeChar (c : Char) : String :=
  if c.isAlphanum || c == '-' || c == '.' || c == '_' || c == '*' then String.singleton c
  else if c == ' ' then "+"
  else String.join (((String.singleton c).toUTF8.toList).map percentByte)

/-- Model of the form-urlencoded encoding of a whole string. -/
def urlencode (s : String) : String :=
  String.join (s.data.map encodeChar)

/-- Model of `URLSearchParams.set`: if the key is already present, the first
occurrence is updated in place and any later duplicates are removed;
otherwise the pair is appended at the end. -/
def spSet : List (String × String) → String → String → List (String × String)
  | [], k, v => [(k, v)]
  | (k2, v2) :: t, k, v =>
    if k2 = k then (k, v) :: t.filter (fun p => p.1 ≠ k)
    else (k2, v2) :: spSet t k v

/-- Model of `URLSearchParams.toString`: the pairs rendered as
`key=value`, percent-encoded, joined by ampersands. -/
def qsToString (l : List (String × String)) : String :=
  String.intercalate "&" (l.map (fun p => urlencode p.1 ++ "=" ++ urlencode p.2))

/-- Loop body of the TypeScript SDK's query construction
(`CloudPulseClient.request`): `if (v !== undefined) qs.set(k, String(v))`. -/
def tsQueryStep (acc : List (String × String)) (kv : String × JsVal) : List (String × String) :=
  if kv.2 ≠ JsVal.vundef then spSet acc kv.1 (jsStringOf kv.2) else acc

/-- Query pairs accumulated by the TypeScript SDK's `request` from a params
object (its entries in order). -/
def tsQueryPairs (ps : List (String × JsVal)) : List (String × String) :=
  ps.foldl tsQueryStep []

/-- Loop body of the JavaScript SDK's query construction
(`CloudPulseClient.request`):
`if (v !== undefined && v !== null) qs.set(k, String(v))`. -/
def jsQueryStep (acc : List (String × String)) (kv : String × JsVal) : List (String × String) :=
  if kv.2 ≠ JsVal.vundef ∧ kv.2 ≠ JsVal.vnull then spSet acc kv.1 (jsStringOf kv.2) else acc

/-- Query pairs accumulated by the JavaScript SDK's `request` from a params
object (its entries in order). -/
def jsQueryPairs (ps : List (String × JsVal)) : List (String × String) :=
  ps.foldl jsQueryStep []

/-- Model of the regex replace in both SDK constructors, which strips one
trailing slash from the base URL. -/
def stripTrailingSlash (s : String) : String :=
  if s.data.getLast? = some '/' then String.mk s.data.dropLast else s

/-- Base URL computed by the TypeScript SDK constructor:
`(options.baseUrl || defaultUrl).replace(...) + apiPath`.  The logical-or
falls back to the default when `baseUrl` is absent or the empty string. -/
def tsBaseUrl (o : Option String) : String :=
  stripTrailingSlash
    (match o with
     | some s => if s = "" then "https://api.cloudpulse.dev" else s
     | none => "https://api.cloudpulse.dev") ++ "/api/v2"

/-- Base URL computed by the JavaScript SDK constructor, whose destructuring
default applies only when `baseUrl` is absent (undefined). -/
def jsBaseUrl (o : Option String) : String :=
  stripTrailingSlash (o.getD "https://api.cloudpulse.dev") ++ "/api/v2"

/-- Shared tail of both `request` implementations: append the serialized
query string to the URL when it is nonempty. -/
def addQuery (url : String) (pairs : List (String × String)) : String :=
  let qs := qsToString pairs
  if qs = "" then url else url ++ "?" ++ qs

/-- URL computed by the TypeScript SDK's `CloudPulseClient.request`. -/
def tsRequestUrl (baseOpt : Option String) (path : String)
    (params : Option (List (String × JsVal))) : String :=
  let url := tsBaseUrl baseOpt ++ path
  match params with
  | none => url
  | some ps => addQuery url (tsQueryPairs ps)

/-- URL computed by the JavaScript SDK's `CloudPulseClient.request`. -/
def jsRequestUrl (baseOpt : Option String) (path : String)
    (params : Option (List (String × JsVal))) : String :=
  let url := jsBaseUrl baseOpt ++ path
  match params with
  | none => url
  | some ps => addQuery url (jsQueryPairs ps)

/-- The resource collections exposed with full CRUD by both the TypeScript
and the JavaScript SDK. -/
inductive Collection where
  | workspaces
  | costReports
  | folders
  | segments
  | teams
  | virtualTags
deriving DecidableEq, Repr

/-- The CRUD operations of a collection resource in both SDKs. -/
inductive CrudOp where
  | list
  | get
  | create
  | update
  | delete
deriving DecidableEq, Repr

/-- The operations of the api-tokens resource in both SDKs. -/
inductive TokenOp where
  | list
  | create
  | revoke
deriving DecidableEq, Repr

/-- Path literal used by the corresponding TypeScript resource class
(`WorkspacesResource`, `CostReportsResource`, `FoldersResource`,
`SegmentsResource`, `TeamsResource`, `VirtualTagsResource`). -/
def tsCollectionPath : Collection → String
  | Collection.workspaces => "/workspaces"
  | Collection.costReports => "/cost_reports"
  | Collection.folders => "/folders"
  | Collection.segments => "/segments"
  | Collection.teams => "/teams"
  | Collection.virtualTags => "/virtual_tags"

/-- HTTP method and URL of the request issued by a TypeScript SDK resource
method: `list` sends GET with the params, `get`, `update` and `delete`
address the token subpath, `create` posts to the collection path. -/
def tsCall (c : Collection) (op : CrudOp) (baseOpt : Option String) (token : String)
    (params : Option (List (String × JsVal))) : String × String :=
  match op with
  | CrudOp.list => ("GET", tsRequestUrl baseOpt (tsCollectionPath c) params)
  | CrudOp.get => ("GET", tsRequestUrl baseOpt (tsCollectionPath c ++ "/" ++ token) none)
  | CrudOp.create => ("POST", tsRequestUrl baseOpt (tsCollectionPath c) none)
  | CrudOp.update => ("PUT", tsRequestUrl baseOpt (tsCollectionPath c ++ "/" ++ token) none)
  | CrudOp.delete => ("DELETE", tsRequestUrl baseOpt (tsCollectionPath c ++ "/" ++ token) none)

/-- HTTP method and URL of the request issued by the TypeScript SDK's
`APITokensResource`. -/
def tsTokensCall (op : TokenOp) (baseOpt : Option String) (pfx : String)
    (params : Option (List (String × JsVal))) : String × String :=
  match op with
  | TokenOp.list => ("GET", tsRequestUrl baseOpt "/api_tokens" params)
  | TokenOp.create => ("POST", tsRequestUrl baseOpt "/api_tokens" none)
  | TokenOp.revoke => ("DELETE", tsRequestUrl baseOpt ("/api_tokens/" ++ pfx) none)

/-- Base path registered for each collection in the JavaScript SDK's
constructor (`new Resource(this, basePath, listKey)`). -/
def jsResourceBasePath : Collection → String
  | Collection.workspaces => "/workspaces"
  | Collection.costReports => "/cost_reports"
  | Collection.folders => "/folders"
  | Collection.segments => "/segments"
  | Collection.teams => "/teams"
  | Collection.virtualTags => "/virtual_tags"

/-- HTTP method and URL of the request issued by a method of the JavaScript
SDK's generic `Resource` class, for a given registered base path. -/
def jsResourceCall (basePath : String) (op : CrudOp) (baseOpt : Option String) (token : String)
    (params : Option (List (String × JsVal))) : String × String :=
  match op with
  | CrudOp.list => ("GET", jsRequestUrl baseOpt basePath params)
  | CrudOp.get => ("GET", jsRequestUrl baseOpt (basePath ++ "/" ++ token) none)
  | CrudOp.create => ("POST", jsRequestUrl baseOpt basePath none)
  | CrudOp.update => ("PUT", jsRequestUrl baseOpt (basePath ++ "/" ++ token) none)
  | CrudOp.delete => ("DELETE", jsRequestUrl baseOpt (basePath ++ "/" ++ token) none)

/-- HTTP method and URL issued by a JavaScript SDK collection resource. -/
def jsCall (c : Collection) (op : CrudOp) (baseOpt : Option String) (token : String)
    (params : Option (List (String × JsVal))) : String × String :=
  jsResourceCall (jsResourceBasePath c) op baseOpt token params

/-- HTTP method and URL issued by the JavaScript SDK's `TokensResource`. -/
def jsTokensCall (op : TokenOp) (baseOpt : Option String) (pfx : String)
    (params : Option (List (String × JsVal))) : String × String :=
  match op with
  | TokenOp.list => ("GET", jsRequestUrl baseOpt "/api_tokens" params)
  | TokenOp.create => ("POST", jsRequestUrl baseOpt "/api_tokens" none)
  | TokenOp.revoke => ("DELETE", jsRequestUrl baseOpt ("/api_tokens/" ++ pfx) none)

lemma tsQueryStep_eq_jsQueryStep (acc : List (String × String)) (kv : String × JsVal)
    (h : kv.2 ≠ JsVal.vnull) : tsQueryStep acc kv = jsQueryStep acc kv := by
  rcases kv with ⟨k, v⟩
  cases v <;> simp_all [tsQueryStep, jsQueryStep]

lemma foldl_query_eq (ps : List (String × JsVal)) :
    ∀ acc, (∀ kv ∈ ps, kv.2 ≠ JsVal.vnull) →
      ps.foldl tsQueryStep acc = ps.foldl jsQueryStep acc := by
  induction ps with
  | nil => intro acc _; rfl
  | cons kv t ih =>
    intro acc h
    simp only [List.foldl_cons]
    rw [tsQueryStep_eq_jsQueryStep acc kv (h kv (List.mem_cons_self kv t))]
    exact ih _ (fun x hx => h x (List.mem_cons_of_mem kv hx))

lemma tsQueryPairs_eq_jsQueryPairs (ps : List (String × JsVal))
    (h : ∀ kv ∈ ps, kv.2 ≠ JsVal.vnull) : tsQueryPairs ps = jsQueryPairs ps :=
  foldl_query_eq ps [] h

lemma tsBaseUrl_eq_jsBaseUrl (o : Option String) (h : o ≠ some "") :
    tsBaseUrl o = jsBaseUrl o := by
  cases o with
  | none => rfl
  | some s =>
    have hs : s ≠ "" := fun he => h (by rw [he])
    simp [tsBaseUrl, jsBaseUrl, hs]

lemma tsRequestUrl_eq_jsRequestUrl (baseOpt : Option String) (path : String)
    (params : Option (List (String × JsVal))) (hb : baseOpt ≠ some "")
    (hp : ∀ kv ∈ params.getD [], kv.2 ≠ JsVal.vnull) :
    tsRequestUrl baseOpt path params = jsRequestUrl baseOpt path params := by
  cases params with
  | none => simp [tsRequestUrl, jsRequestUrl, tsBaseUrl_eq_jsBaseUrl baseOpt hb]
  | some ps =>
    simp only [tsRequestUrl, jsRequestUrl, tsBaseUrl_eq_jsBaseUrl baseOpt hb]
    rw [tsQueryPairs_eq_jsQueryPairs ps (by simpa using hp)]

lemma tsCollectionPath_eq_jsResourceBasePath (c : Collection) :
    tsCollectionPath c = jsResourceBasePath c := by
  cases c <;> rfl

/-- C1 (amended): for every resource exposed by both the TypeScript and the
JavaScript SDK and every operation on it, given the same baseUrl option —
provided it is omitted or nonempty — the same path token, and the same
params mapping — provided no param value is null — the two clients compute
the identical HTTP method and the identical request URL, including the
query-string serialization of params. -/
theorem ts_js_request_agreement (c : Collection) (op : CrudOp) (top : TokenOp)
    (baseOpt : Option String) (token pfx : String) (params : Option (List (String × JsVal)))
    (hb : baseOpt ≠ some "") (hp : ∀ kv ∈ params.getD [], kv.2 ≠ JsVal.vnull) :
    tsCall c op baseOpt token params = jsCall c op baseOpt token params ∧
    tsTokensCall top baseOpt pfx params = jsTokensCall top baseOpt pfx params := by
  have hnone : ∀ path, tsRequestUrl baseOpt path none = jsRequestUrl baseOpt path none :=
    fun path => tsRequestUrl_eq_jsRequestUrl baseOpt path none hb (by simp)
  have hsome : ∀ path, tsRequestUrl baseOpt path params = jsRequestUrl baseOpt path params :=
    fun path => tsRequestUrl_eq_jsRequestUrl baseOpt path params hb hp
  constructor
  · cases op <;>
      simp [tsCall, jsCall, jsResourceCall, tsCollectionPath_eq_jsResourceBasePath c,
        hsome, hnone]
  · cases top <;> simp [tsTokensCall, jsTokensCall, hsome, hnone]

/-- C1 counterexample: with the same baseUrl option set to the empty string
the TypeScript SDK falls back to the production default (logical-or) while
the JavaScript SDK keeps the empty base (destructuring default), and with a
null param value the TypeScript SDK serializes the string "null" while the
JavaScript SDK drops the pair, so the two clients compute different request
URLs for the same workspaces list call. -/
theorem ts_js_request_counterexample :
    tsCall Collection.workspaces CrudOp.list (some "") "" none ≠
      jsCall Collection.workspaces CrudOp.list (some "") "" none ∧
    tsCall Collection.workspaces CrudOp.list none "" (some [("page", JsVal.vnull)]) ≠
      jsCall Collection.workspaces CrudOp.list none "" (some [("page", JsVal.vnull)]) := by
  constructor <;> decide

/-- Witness for C1's amended theorem at a concrete client configuration. -/
theorem ts_js_request_agreement_witness :
    ((some "https://cp.example.com" : Option String) ≠ some "" ∧
      (∀ kv ∈ (some [("workspace_token", JsVal.vstr "ws_abc"), ("page", JsVal.vnum 2)] :
          Option (List (String × JsVal))).getD [], kv.2 ≠ JsVal.vnull)) ∧
    tsCall Collection.costReports CrudOp.list (some "https://cp.example.com") "tok"
        (some [("workspace_token", JsVal.vstr "ws_abc"), ("page", JsVal.vnum 2)]) =
      jsCall Collection.costReports CrudOp.list (some "https://cp.example.com") "tok"
        (some [("workspace_token", JsVal.vstr "ws_abc"), ("page", JsVal.vnum 2)]) ∧
    tsTokensCall TokenOp.revoke (some "https://cp.example.com") "cpls_x"
        (some [("workspace_token", JsVal.vstr "ws_abc"), ("page", JsVal.vnum 2)]) =
      jsTokensCall TokenOp.revoke (some "https://cp.example.com") "cpls_x"
        (some [("workspace_token", JsVal.vstr "ws_abc"), ("page", JsVal.vnum 2)]) := by
  have h1 : (some "https://cp.example.com" : Option String) ≠ some "" := by decide
  have h2 : ∀ kv ∈ (some [("workspace_token", JsVal.vstr "ws_abc"), ("page", JsVal.vnum 2)] :
      Option (List (String × JsVal))).getD [], kv.2 ≠ JsVal.vnull := by decide
  refine ⟨⟨h1, h2⟩, ?_, ?_⟩
  · exact (ts_js_request_agreement Collection.costReports CrudOp.list TokenOp.revoke
      (some "https://cp.example.com") "tok" "cpls_x" _ h1 h2).1
  · exact (ts_js_request_agreement Collection.costReports CrudOp.list TokenOp.revoke
      (some "https://cp.example.com") "tok" "cpls_x" _ h1 h2).2

/-- Value associated with a key in a list of serialized query pairs (the
first matching pair, as `URLSearchParams` keeps one pair per key under
`set`). -/
def qlookup (l : List (String × String)) (k : String) : Option String :=
  (l.find? (fun p => p.1 == k)).map (fun p => p.2)

lemma qlookup_cons (k2 v2 : String) (t : List (String × String)) (k : String) :
    qlookup ((k2, v2) :: t) k = if k2 == k then some v2 else qlookup t k := by
  cases h : (k2 == k) <;> simp [qlookup, List.find?, h]

lemma spSet_lookup_self (l : List (String × String)) (k v : String) :
    qlookup (spSet l k v) k = some v := by
  induction l with
  | nil => simp [spSet, qlookup_cons]
  | cons x t ih =>
    rcases x with ⟨k2, v2⟩
    by_cases hk : k2 = k
    · subst hk; simp [spSet, qlookup_cons]
    · simp only [spSet, if_neg hk, qlookup_cons]
      rw [if_neg (by simpa using hk)]
      exact ih

lemma qlookup_filter_ne (t : List (String × String)) (k k2 : String) (h : k2 ≠ k) :
    qlookup (t.filter (fun p => p.1 ≠ k)) k2 = qlookup t k2 := by
  induction t with
  | nil => rfl
  | cons x t ih =>
    rcases x with ⟨k1, v1⟩
    by_cases hk1 : k1 = k
    · subst hk1
      rw [List.filter_cons_of_neg (by simp), qlookup_cons, if_neg (by simpa using Ne.symm h)]
      exact ih
    · rw [List.filter_cons_of_pos (by simpa using hk1), qlookup_cons, qlookup_cons]
      by_cases h12 : k1 = k2
      · simp [h12]
      · rw [if_neg (by simpa using h12), if_neg (by simpa using h12)]
        exact ih

lemma spSet_lookup_ne (l : List (String × String)) (k v k2 : String) (h : k2 ≠ k) :
    qlookup (spSet l k v) k2 = qlookup l k2 := by
  induction l with
  | nil => simp [spSet, qlookup_cons, if_neg (by simpa using Ne.symm h), qlookup]
  | cons x t ih =>
    rcases x with ⟨k1, v1⟩
    by_cases hk1 : k1 = k
    · subst hk1
      have hs : spSet ((k1, v1) :: t) k1 v = (k1, v) :: t.filter (fun p => p.1 ≠ k1) := by
        simp [spSet]
      have hne : ¬ (k1 == k2) = true := by
        simp only [beq_iff_eq]; exact Ne.symm h
      rw [hs, qlookup_cons, qlookup_cons, if_neg hne, if_neg hne]
      exact qlookup_filter_ne t k1 k2 h
    · simp only [spSet, if_neg hk1, qlookup_cons]
      by_cases h12 : k1 = k2
      · simp [h12]
      · rw [if_neg (by simpa using h12), if_neg (by simpa using h12)]
        exact ih

lemma tsQueryStep_lookup_ne (acc : List (String × String)) (kv : String × JsVal) (k : String)
    (hk : kv.1 ≠ k) : qlookup (tsQueryStep acc kv) k = qlookup acc k := by
  unfold tsQueryStep
  by_cases hu : kv.2 ≠ JsVal.vundef
  · rw [if_pos hu]; exact spSet_lookup_ne acc kv.1 (jsStringOf kv.2) k (Ne.symm hk)
  · rw [if_neg hu]

lemma jsQueryStep_lookup_ne (acc : List (String × String)) (kv : String × JsVal) (k : String)
    (hk : kv.1 ≠ k) : qlookup (jsQueryStep acc kv) k = qlookup acc k := by
  unfold jsQueryStep
  by_cases hu : kv.2 ≠ JsVal.vundef ∧ kv.2 ≠ JsVal.vnull
  · rw [if_pos hu]; exact spSet_lookup_ne acc kv.1 (jsStringOf kv.2) k (Ne.symm hk)
  · rw [if_neg hu]

lemma foldl_ts_lookup_absent (ps : List (String × JsVal)) :
    ∀ acc k, (∀ kv ∈ ps, kv.1 ≠ k) →
      qlookup (ps.foldl tsQueryStep acc) k = qlookup acc k := by
  induction ps with
  | nil => intro acc k _; rfl
  | cons kv t ih =>
    intro acc k h
    simp only [List.foldl_cons]
    rw [ih _ _ (fun x hx => h x (List.mem_cons_of_mem kv hx))]
    exact tsQueryStep_lookup_ne acc kv k (h kv (List.mem_cons_self kv t))

lemma foldl_js_lookup_absent (ps : List (String × JsVal)) :
    ∀ acc k, (∀ kv ∈ ps, kv.1 ≠ k) →
      qlookup (ps.foldl jsQueryStep acc) k = qlookup acc k := by
  induction ps with
  | nil => intro acc k _; rfl
  | cons kv t ih =>
    intro acc k h
    simp only [List.foldl_cons]
    rw [ih _ _ (fun x hx => h x (List.mem_cons_of_mem kv hx))]
    exact jsQueryStep_lookup_ne acc kv k (h kv (List.mem_cons_self kv t))

lemma tsQueryPairs_lookup_present (l1 l2 : List (String × JsVal)) (k w : String)
    (h2 : ∀ kv ∈ l2, kv.1 ≠ k) :
    qlookup (tsQueryPairs (l1 ++ (k, JsVal.vstr w) :: l2)) k = some w := by
  unfold tsQueryPairs
  rw [List.foldl_append, List.foldl_cons, foldl_ts_lookup_absent l2 _ k h2]
  show qlookup (tsQueryStep (l1.foldl tsQueryStep []) (k, JsVal.vstr w)) k = some w
  unfold tsQueryStep
  rw [if_pos (by simp)]
  exact spSet_lookup_self _ _ _

lemma jsQueryPairs_lookup_present (l1 l2 : List (String × JsVal)) (k w : String)
    (h2 : ∀ kv ∈ l2, kv.1 ≠ k) :
    qlookup (jsQueryPairs (l1 ++ (k, JsVal.vstr w) :: l2)) k = some w := by
  unfold jsQueryPairs
  rw [List.foldl_append, List.foldl_cons, foldl_js_lookup_absent l2 _ k h2]
  show qlookup (jsQueryStep (l1.foldl jsQueryStep []) (k, JsVal.vstr w)) k = some w
  unfold jsQueryStep
  rw [if_pos (by simp)]
  exact spSet_lookup_self _ _ _

/-- Model of the Go SDK's `ListParams` struct: zero values mean the field
is not set. -/
structure GoListParams where
  page : Int
  limit : Int
  workspaceToken : String
deriving DecidableEq, Repr

/-- Query pairs produced by the Go SDK's `ListParams.toQuery`: `page`,
`limit` and `workspace_token` are set when nonzero; a nil receiver yields
no pairs.  `url.Values.Encode` emits the keys in sorted order
(limit, page, workspace_token). -/
def goQueryPairs (p : Option GoListParams) : List (String × String) :=
  match p with
  | none => []
  | some q =>
    (if 0 < q.limit then [("limit", toString q.limit)] else []) ++
    (if 0 < q.page then [("page", toString q.page)] else []) ++
    (if q.workspaceToken ≠ "" then [("workspace_token", q.workspaceToken)] else [])

/-- The query-string suffix produced by the Go SDK's `ListParams.toQuery`:
a question mark plus the encoding when any pair is set, else empty. -/
def goToQuery (p : Option GoListParams) : String :=
  if goQueryPairs p = [] then "" else "?" ++ qsToString (goQueryPairs p)

lemma goQueryPairs_lookup (q : GoListParams) :
    qlookup (goQueryPairs (some q)) "workspace_token" =
      (if q.workspaceToken ≠ "" then some q.workspaceToken else none) := by
  unfold goQueryPairs
  by_cases hl : 0 < q.limit <;> by_cases hp : 0 < q.page <;>
    by_cases hw : q.workspaceToken ≠ "" <;>
      simp [hl, hp, hw, qlookup_cons, qlookup]

/-- C5: for each workspace-scoped collection in the SDK clients
(cost_reports, folders, segments, teams, virtual_tags) the list operation
takes an optional workspace_token parameter.  When it is provided (one
entry for the key, with later entries not reusing it), the query pairs
serialized into the request URL map workspace_token to the given value, in
the TypeScript, the JavaScript and the Go client alike (in Go a nonempty
`WorkspaceToken` field is what providing the parameter means); when it is
omitted, no workspace_token key appears among the query pairs. -/
theorem workspace_token_scoping
    (c : Collection)
    (hc : c ∈ [Collection.costReports, Collection.folders, Collection.segments,
      Collection.teams, Collection.virtualTags])
    (baseOpt : Option String) (tok w : String) (l1 l2 : List (String × JsVal))
    (h2 : ∀ kv ∈ l2, kv.1 ≠ "workspace_token") (g : GoListParams) :
    tsCall c CrudOp.list baseOpt tok (some (l1 ++ ("workspace_token", JsVal.vstr w) :: l2)) =
      ("GET", addQuery (tsBaseUrl baseOpt ++ tsCollectionPath c)
        (tsQueryPairs (l1 ++ ("workspace_token", JsVal.vstr w) :: l2))) ∧
    qlookup (tsQueryPairs (l1 ++ ("workspace_token", JsVal.vstr w) :: l2))
      "workspace_token" = some w ∧
    qlookup (jsQueryPairs (l1 ++ ("workspace_token", JsVal.vstr w) :: l2))
      "workspace_token" = some w ∧
    (∀ ps : List (String × JsVal), (∀ kv ∈ ps, kv.1 ≠ "workspace_token") →
      qlookup (tsQueryPairs ps) "workspace_token" = none ∧
      qlookup (jsQueryPairs ps) "workspace_token" = none) ∧
    (g.workspaceToken = w → w ≠ "" →
      qlookup (goQueryPairs (some g)) "workspace_token" = some w) ∧
    (g.workspaceToken = "" →
      qlookup (goQueryPairs (some g)) "workspace_token" = none) := by
  refine ⟨rfl, tsQueryPairs_lookup_present l1 l2 _ w h2,
    jsQueryPairs_lookup_present l1 l2 _ w h2, ?_, ?_, ?_⟩
  · intro ps hps
    exact ⟨foldl_ts_lookup_absent ps [] _ hps, foldl_js_lookup_absent ps [] _ hps⟩
  · intro hg hw
    rw [goQueryPairs_lookup g, if_pos (hg ▸ hw), hg]
  · intro hg
    rw [goQueryPairs_lookup g, if_neg (by simp [hg])]

/-- Witness for C5 on a concrete list call of the cost_reports collection. -/
theorem workspace_token_scoping_witness :
    (Collection.costReports ∈ [Collection.costReports, Collection.folders,
      Collection.segments, Collection.teams, Collection.virtualTags] ∧
      (∀ kv ∈ ([("limit", JsVal.vnum 25)] : List (String × JsVal)),
        kv.1 ≠ "workspace_token")) ∧
    qlookup (tsQueryPairs ([("page", JsVal.vnum 1)] ++
        ("workspace_token", JsVal.vstr "ws_7") :: [("limit", JsVal.vnum 25)]))
      "workspace_token" = some "ws_7" ∧
    qlookup (goQueryPairs (some (GoListParams.mk 1 25 "ws_7"))) "workspace_token" =
      some "ws_7" := by
  have hc : Collection.costReports ∈ [Collection.costReports, Collection.folders,
      Collection.segments, Collection.teams, Collection.virtualTags] := by decide
  have h2 : ∀ kv ∈ ([("limit", JsVal.vnum 25)] : List (String × JsVal)),
      kv.1 ≠ "workspace_token" := by decide
  have h := workspace_token_scoping Collection.costReports hc none "tok" "ws_7"
    [("page", JsVal.vnum 1)] [("limit", JsVal.vnum 25)] h2 (GoListParams.mk 1 25 "ws_7")
  exact ⟨⟨hc, h2⟩, h.2.1, h.2.2.2.2.1 rfl (by decide)⟩

/-- Model of the platform `Response.ok` flag used by fetch: true exactly
for status codes 200 through 299. -/
def fetchOk (status : Nat) : Bool :=
  decide (200 ≤ status ∧ status ≤ 299)

/-- Whether the TypeScript SDK's `request` treats a status as failure:
it throws when `!res.ok`. -/
def tsStatusFails (status : Nat) : Bool :=
  !(fetchOk status)

/-- Whether the JavaScript SDK's `request` treats a status as failure:
it throws when `!res.ok`. -/
def jsStatusFails (status : Nat) : Bool :=
  !(fetchOk status)

/-- Whether the Go SDK's `doRequest` treats a status as failure:
it returns an error when `resp.StatusCode >= 400`. -/
def goStatusFails (status : Nat) : Bool :=
  decide (400 ≤ status)

/-- Outcome of the TypeScript SDK's `request` as a function of the response
status, the parsed JSON body of a success, and the optional `detail` field
of a parsed error body. -/
def tsRequestResult (status : Nat) (body : String) (detail : Option String) :
    Except String String :=
  if fetchOk status then Except.ok body
  else Except.error
    ("CloudPulse API error " ++ toString status ++ ": " ++ detail.getD "Unknown error")

/-- Outcome of the JavaScript SDK's `request`, which runs the same check
and builds the same error message as the TypeScript SDK. -/
def jsRequestResult (status : Nat) (body : String) (detail : Option String) :
    Except String String :=
  if fetchOk status then Except.ok body
  else Except.error
    ("CloudPulse API error " ++ toString status ++ ": " ++ detail.getD "Unknown error")

/-- Outcome of the Go SDK's `doRequest` as a function of the response
status and the response bytes: an error carrying the status and raw body
when the status is at least 400, the body otherwise. -/
def goDoRequest (status : Nat) (data : String) : Except String String :=
  if 400 ≤ status then
    Except.error ("API error " ++ toString status ++ ": " ++ data)
  else Except.ok data

/-- C3 counterexample: the three SDKs do not agree on every status code —
at status 304 the TypeScript (and JavaScript) client throws while the Go
client returns the body. -/
theorem sdk_error_status_counterexample :
    tsStatusFails 304 = true ∧ jsStatusFails 304 = true ∧ goStatusFails 304 = false ∧
    tsStatusFails 304 ≠ goStatusFails 304 := by
  decide

/-- C3 (amended): each of the TypeScript, JavaScript and Go request
functions returns an error exactly when the HTTP status denotes failure by
its own test and returns the response body otherwise; the TypeScript and
JavaScript clients agree on every status code (failure outside 200–299),
while the Go client (failure at 400 and above) agrees with them exactly on
the statuses that are at least 200 and not in the 300–399 range. -/
theorem sdk_error_status_agreement (status : Nat) (body data : String)
    (detail : Option String) :
    (tsRequestResult status body detail = Except.ok body ↔ tsStatusFails status = false) ∧
    (jsRequestResult status body detail = Except.ok body ↔ jsStatusFails status = false) ∧
    (goDoRequest status data = Except.ok data ↔ goStatusFails status = false) ∧
    tsStatusFails status = jsStatusFails status ∧
    (tsStatusFails status = goStatusFails status ↔
      200 ≤ status ∧ (status ≤ 299 ∨ 400 ≤ status)) := by
  refine ⟨?_, ?_, ?_, rfl, ?_⟩
  · by_cases h : fetchOk status = true <;>
      simp [tsRequestResult, tsStatusFails, h]
  · by_cases h : fetchOk status = true <;>
      simp [jsRequestResult, jsStatusFails, h]
  · by_cases h : 400 ≤ status <;>
      simp [goDoRequest, goStatusFails, h]
  · simp only [tsStatusFails, goStatusFails, fetchOk]
    by_cases h1 : 200 ≤ status <;> by_cases h2 : status ≤ 299 <;>
      by_cases h3 : 400 ≤ status <;> simp [h1, h2, h3] <;> omega

/-- The badge variants rendered by `BudgetStatusBadge` in `Budgets.jsx`. -/
inductive BudgetBadge where
  | overBudget
  | warning
  | onTrack
deriving DecidableEq, Repr

/-- The `BudgetStatusBadge` component: Over Budget when at least the whole
budget is used, Warning when at least the alert fraction is used, On Track
otherwise. -/
def budgetStatusBadge (pctUsed alertAtPct : ℚ) : BudgetBadge :=
  if 1 ≤ pctUsed then BudgetBadge.overBudget
  else if alertAtPct ≤ pctUsed then BudgetBadge.warning
  else BudgetBadge.onTrack

/-- The bar width chosen by the `ProgressBar` component:
`Math.min(pctUsed * 100, 100)`. -/
def progressWidth (pctUsed : ℚ) : ℚ :=
  min (pctUsed * 100) 100

/-- The bar color chosen by the `ProgressBar` component, by the same
threshold comparisons as the badge. -/
def progressColor (pctUsed alertAtPct : ℚ) : String :=
  if 1 ≤ pctUsed then "var(--color-error)"
  else if alertAtPct ≤ pctUsed then "var(--color-warning)"
  else "var(--color-success)"

/-- C4 counterexample: the claim's three iff-characterizations fail without
a bound on alert_at_pct.  For a budget with amount 10, current_spend 11 and
alert_at_pct 1.2 the ratio 1.1 is below alert_at_pct, so the claim's
On-Track clause demands the On Track badge, yet the component renders Over
Budget. -/
theorem budget_badge_counterexample :
    budgetStatusBadge ((11 : ℚ) / 10) ((12 : ℚ) / 10) = BudgetBadge.overBudget ∧
    (11 : ℚ) / 10 < (12 : ℚ) / 10 ∧
    budgetStatusBadge ((11 : ℚ) / 10) ((12 : ℚ) / 10) ≠ BudgetBadge.onTrack := by
  have hb : budgetStatusBadge ((11 : ℚ) / 10) ((12 : ℚ) / 10) = BudgetBadge.overBudget := by
    norm_num [budgetStatusBadge]
  exact ⟨hb, by norm_num, by rw [hb]; decide⟩

/-- C4 (amended): for every budget with amount > 0, ratio
pctUsed = current_spend / amount and alert fraction at most 1 (the range
the budget form enforces), the badge shows Over Budget iff pctUsed ≥ 1,
Warning iff alert_at_pct ≤ pctUsed < 1 and On Track iff
pctUsed < alert_at_pct; the progress bar picks its color by the same three
thresholds and caps the displayed width at 100. -/
theorem budget_badge_thresholds (amount spend alertAtPct : ℚ)
    (hamt : 0 < amount) (halert : alertAtPct ≤ 1) :
    (budgetStatusBadge (spend / amount) alertAtPct = BudgetBadge.overBudget ↔
      1 ≤ spend / amount) ∧
    (budgetStatusBadge (spend / amount) alertAtPct = BudgetBadge.warning ↔
      alertAtPct ≤ spend / amount ∧ spend / amount < 1) ∧
    (budgetStatusBadge (spend / amount) alertAtPct = BudgetBadge.onTrack ↔
      spend / amount < alertAtPct) ∧
    (progressColor (spend / amount) alertAtPct = "var(--color-error)" ↔
      1 ≤ spend / amount) ∧
    (progressColor (spend / amount) alertAtPct = "var(--color-warning)" ↔
      alertAtPct ≤ spend / amount ∧ spend / amount < 1) ∧
    (progressColor (spend / amount) alertAtPct = "var(--color-success)" ↔
      spend / amount < alertAtPct) ∧
    progressWidth (spend / amount) ≤ 100 ∧
    (spend / amount ≤ 1 → progressWidth (spend / amount) = spend / amount * 100) := by
  set p := spend / amount with hp
  have hw : progressWidth p ≤ 100 := min_le_right _ _
  have hcap : p ≤ 1 → progressWidth p = p * 100 := by
    intro h1
    exact min_eq_left (by nlinarith)
  refine ⟨?_, ?_, ?_, ?_, ?_, ?_, hw, hcap⟩ <;>
    (by_cases h1 : 1 ≤ p
     · have hno : ¬ p < alertAtPct := not_lt.mpr (le_trans halert h1)
       simp [budgetStatusBadge, progressColor, h1, hno, not_lt.mpr h1]
     · by_cases h2 : alertAtPct ≤ p
       · simp [budgetStatusBadge, progressColor, h1, h2, not_le.mp h1, not_lt.mpr h2]
       · simp [budgetStatusBadge, progressColor, h1, h2, not_le.mp h2])

/-- Witness for C4's amended theorem at a concrete budget. -/
theorem budget_badge_thresholds_witness :
    ((0 : ℚ) < 200 ∧ ((4 : ℚ) / 5) ≤ 1) ∧
    (budgetStatusBadge ((90 : ℚ) / 200) ((4 : ℚ) / 5) = BudgetBadge.onTrack ↔
      (90 : ℚ) / 200 < (4 : ℚ) / 5) ∧
    progressWidth ((90 : ℚ) / 200) ≤ 100 := by
  have hamt : (0 : ℚ) < 200 := by norm_num
  have halert : ((4 : ℚ) / 5) ≤ 1 := by norm_num
  have h := budget_badge_thresholds 200 90 ((4 : ℚ) / 5) hamt halert
  exact ⟨⟨hamt, halert⟩, h.2.2.1, h.2.2.2.2.2.2.1⟩

/-- A budget as rendered by `Budgets.jsx` (the fields its arithmetic
reads). -/
structure Budget where
  id : Nat
  amount : ℚ
  current_spend : ℚ
  alert_at_pct : ℚ
deriving DecidableEq, Repr

/-- The per-budget ratio used in the at-risk filter of the stats memo:
`b.amount > 0 ? b.current_spend / b.amount : 0`. -/
def budgetPct (b : Budget) : ℚ :=
  if 0 < b.amount then b.current_spend / b.amount else 0

/-- The summary values computed by the `stats` memo of `Budgets.jsx`. -/
structure BudgetStats where
  total : ℚ
  spent : ℚ
  overBudget : Nat
  atRisk : Nat
  remaining : ℚ
deriving DecidableEq, Repr

/-- The `stats` memo of `Budgets.jsx`: totals by reduction, counts by
filtering, and remaining clamped at zero. -/
def budgetStats (l : List Budget) : BudgetStats :=
  let total := l.foldl (fun s b => s + b.amount) 0
  let spent := l.foldl (fun s b => s + b.current_spend) 0
  { total := total
    spent := spent
    overBudget := (l.filter (fun b => decide (b.amount < b.current_spend))).length
    atRisk := (l.filter (fun b =>
      decide (b.alert_at_pct ≤ budgetPct b ∧ budgetPct b < 1))).length
    remaining := max (total - spent) 0 }

/-- C8: in the Budgets summary statistics a budget is counted as
over-budget iff its spend strictly exceeds its amount; for budgets with
positive amounts it is counted as at-risk iff
alert_at_pct ≤ current_spend / amount < 1; remaining is never negative;
and a budget whose spend exactly equals its positive amount is counted in
neither stat although its badge shows Over Budget. -/
theorem budget_stats_characterization (l : List Budget)
    (hpos : ∀ b ∈ l, 0 < b.amount) :
    (budgetStats l).overBudget =
      (l.filter (fun b => decide (b.amount < b.current_spend))).length ∧
    (budgetStats l).atRisk =
      (l.filter (fun b => decide (b.alert_at_pct ≤ b.current_spend / b.amount ∧
        b.current_spend / b.amount < 1))).length ∧
    0 ≤ (budgetStats l).remaining ∧
    (∀ b ∈ l, b.current_spend = b.amount →
      ¬ b.amount < b.current_spend ∧
      ¬ (b.alert_at_pct ≤ b.current_spend / b.amount ∧ b.current_spend / b.amount < 1) ∧
      budgetStatusBadge (b.current_spend / b.amount) b.alert_at_pct =
        BudgetBadge.overBudget) := by
  refine ⟨rfl, ?_, le_max_right _ _, ?_⟩
  · show (l.filter _).length = (l.filter _).length
    congr 1
    apply List.filter_congr
    intro b hb
    have hb' : budgetPct b = b.current_spend / b.amount := by
      unfold budgetPct
      rw [if_pos (hpos b hb)]
    rw [hb']
  · intro b hb heq
    have hbpos : 0 < b.amount := hpos b hb
    have hone : b.current_spend / b.amount = 1 := by
      rw [heq]
      exact div_self (ne_of_gt hbpos)
    refine ⟨by rw [heq]; exact lt_irrefl _, ?_, ?_⟩
    · rw [hone]
      rintro ⟨-, h1⟩
      exact lt_irrefl 1 h1
    · rw [hone]
      unfold budgetStatusBadge
      rw [if_pos le_rfl]

/-- Witness for C8 on a concrete budget list: one budget exactly at its
amount and one strictly over. -/
theorem budget_stats_characterization_witness :
    (∀ b ∈ [Budget.mk 1 100 100 (4 / 5), Budget.mk 2 50 60 (4 / 5)], 0 < b.amount) ∧
    (budgetStats [Budget.mk 1 100 100 (4 / 5), Budget.mk 2 50 60 (4 / 5)]).overBudget =
      ([Budget.mk 1 100 100 (4 / 5), Budget.mk 2 50 60 (4 / 5)].filter
        (fun b => decide (b.amount < b.current_spend))).length ∧
    0 ≤ (budgetStats [Budget.mk 1 100 100 (4 / 5), Budget.mk 2 50 60 (4 / 5)]).remaining := by
  have hpos : ∀ b ∈ [Budget.mk 1 100 100 (4 / 5), Budget.mk 2 50 60 (4 / 5)],
      0 < b.amount := by
    intro b hb
    simp only [List.mem_cons, List.mem_singleton, List.not_mem_nil, or_false] at hb
    rcases hb with rfl | rfl <;> norm_num
  have h := budget_stats_characterization
    [Budget.mk 1 100 100 (4 / 5), Budget.mk 2 50 60 (4 / 5)] hpos
  exact ⟨hpos, h.1, h.2.2.1⟩

/-- Severity levels of a detected anomaly. -/
inductive AnomalySeverity where
  | critical
  | warning
  | info
  | normal
deriving DecidableEq, Repr

/-- Modelled from the spec: the backend anomaly-detection service is not in
this repository slice; per the Feature 3 documentation it flags daily spend
against the rolling 7-day average and assigns severity by percentage
deviation — INFO at 25 percent and above, WARNING at 50 percent and above,
CRITICAL at 100 percent and above. -/
def anomalySeverity (deviationPct : ℚ) : AnomalySeverity :=
  if 100 ≤ deviationPct then AnomalySeverity.critical
  else if 50 ≤ deviationPct then AnomalySeverity.warning
  else if 25 ≤ deviationPct then AnomalySeverity.info
  else AnomalySeverity.normal

/-- The anomaly alert configuration edited on the Anomalies page, with
thresholds in percent deviation. -/
structure AnomalyAlertConfig where
  criticalThreshold : ℚ
  warningThreshold : ℚ
  emailEnabled : Bool
  slackEnabled : Bool
  autoAcknowledge : Bool
deriving DecidableEq, Repr

/-- The `alertDefaults` constant of the Anomalies page. -/
def alertDefaults : AnomalyAlertConfig :=
  { criticalThreshold := 50
    warningThreshold := 25
    emailEnabled := true
    slackEnabled := false
    autoAcknowledge := false }

/-- C2 counterexample: the frontend's default alert configuration does not
set the warning threshold to 50 and the critical threshold to 100 — the
constant in the source sets warning 25 and critical 50. -/
theorem alert_defaults_counterexample :
    ¬ (alertDefaults.warningThreshold = 50 ∧ alertDefaults.criticalThreshold = 100) ∧
    alertDefaults.warningThreshold = 25 ∧ alertDefaults.criticalThreshold = 50 := by
  refine ⟨?_, rfl, rfl⟩
  rintro ⟨h, -⟩
  norm_num [alertDefaults] at h

/-- C2 (amended): severity is assigned by threshold comparisons on the
percentage deviation from the rolling 7-day average, with the documented
levels INFO at 25 and above, WARNING at 50 and above and CRITICAL at 100
and above; the frontend's default alert configuration, however, sets the
warning threshold to 25 and the critical threshold to 50 (percent
deviation). -/
theorem anomaly_severity_thresholds :
    (∀ d : ℚ,
      (anomalySeverity d = AnomalySeverity.critical ↔ 100 ≤ d) ∧
      (anomalySeverity d = AnomalySeverity.warning ↔ 50 ≤ d ∧ d < 100) ∧
      (anomalySeverity d = AnomalySeverity.info ↔ 25 ≤ d ∧ d < 50)) ∧
    alertDefaults.warningThreshold = 25 ∧ alertDefaults.criticalThreshold = 50 := by
  refine ⟨?_, rfl, rfl⟩
  intro d
  refine ⟨?_, ?_, ?_⟩ <;>
    (by_cases h1 : 100 ≤ d
     · simp [anomalySeverity, h1]
       all_goals (intro h; linarith)
     · by_cases h2 : 50 ≤ d
       · simp [anomalySeverity, h1, h2, not_le.mp h1]
       · by_cases h3 : 25 ≤ d
         · simp [anomalySeverity, h1, h2, h3, not_le.mp h2]
         · simp [anomalySeverity, h1, h2, h3])

/-- A logged-in user as returned by the auth endpoints (the provider only
stores and nulls it, so its fields are immaterial). -/
structure AuthUser where
  email : String
deriving DecidableEq, Repr

/-- The state held by `AuthProvider`: the `user` and `token` React states,
the `loading` flag, and the `cloudpulse_token` entry of localStorage. -/
structure AuthState where
  user : Option AuthUser
  token : Option String
  loading : Bool
  storage : Option String
deriving DecidableEq, Repr

/-- Initial provider state: the token is read from localStorage, the user
starts null and loading starts true. -/
def authInit (stored : Option String) : AuthState :=
  { user := none, token := stored, loading := true, storage := stored }

/-- The events that update the provider state: the token-validation effect
succeeding or failing against /api/v1/auth/me, a successful login, and
logout. -/
inductive AuthEvent where
  | validateOk (u : AuthUser)
  | validateFail
  | loginOk (accessToken : String)
  | logout
deriving DecidableEq, Repr

/-- The state transitions of `AuthProvider`: validation success stores the
user; validation failure removes the stored token and nulls token and user;
login stores the access token; logout removes the stored token and nulls
token and user. -/
def authStep (s : AuthState) : AuthEvent → AuthState
  | AuthEvent.validateOk u => { s with user := some u, loading := false }
  | AuthEvent.validateFail =>
      { s with user := none, token := none, storage := none, loading := false }
  | AuthEvent.loginOk t => { s with token := some t, storage := some t }
  | AuthEvent.logout => { s with user := none, token := none, storage := none }

/-- The `isAuthenticated` value the provider renders into its context:
`!!user`. -/
def isAuthenticated (s : AuthState) : Bool :=
  s.user.isSome

/-- C6: in every rendered state isAuthenticated holds exactly when the user
is non-null, and both a failed token validation and a logout drive the
state to user null, token null and the cloudpulse_token storage entry
removed. -/
theorem auth_state_invariant (s : AuthState) (stored : Option String) (u : AuthUser)
    (t : String) :
    (isAuthenticated s = true ↔ s.user ≠ none) ∧
    (authStep s AuthEvent.validateFail).user = none ∧
    (authStep s AuthEvent.validateFail).token = none ∧
    (authStep s AuthEvent.validateFail).storage = none ∧
    (authStep s AuthEvent.logout).user = none ∧
    (authStep s AuthEvent.logout).token = none ∧
    (authStep s AuthEvent.logout).storage = none ∧
    (authInit stored).user = none ∧
    isAuthenticated (authStep s (AuthEvent.validateOk u)) = true ∧
    isAuthenticated (authStep s (AuthEvent.loginOk t)) = isAuthenticated s := by
  refine ⟨?_, rfl, rfl, rfl, rfl, rfl, rfl, rfl, rfl, rfl⟩
  unfold isAuthenticated
  cases s.user <;> simp

/-- An anomaly row as handled by the Anomalies page. -/
structure Anomaly where
  id : Nat
  severity : String
  service : String
  acknowledged : Bool
  actual_amount : ℚ
  expected_amount : ℚ
deriving DecidableEq, Repr

/-- The state update of `handleAcknowledge`:
`prev.map(a => a.id === id ? spread of a with acknowledged true : a)`. -/
def acknowledgeLocal (anomalies : List Anomaly) (targetId : Nat) : List Anomaly :=
  anomalies.map (fun a =>
    if a.id = targetId then { a with acknowledged := true } else a)

/-- C9: acknowledging an anomaly only sets the acknowledged field of the
entries whose id matches — length and order are preserved, entries with a
different id are unchanged, and every other field of a matched entry is
unchanged. -/
theorem acknowledge_frame (l : List Anomaly) (targetId : Nat) :
    (acknowledgeLocal l targetId).length = l.length ∧
    (∀ (j : Nat) (a : Anomaly), l[j]? = some a → a.id ≠ targetId →
      (acknowledgeLocal l targetId)[j]? = some a) ∧
    (∀ (j : Nat) (a : Anomaly), l[j]? = some a → a.id = targetId →
      (acknowledgeLocal l targetId)[j]? = some { a with acknowledged := true }) ∧
    (∀ (j : Nat) (a b : Anomaly), l[j]? = some a →
      (acknowledgeLocal l targetId)[j]? = some b →
      b.id = a.id ∧ b.severity = a.severity ∧ b.service = a.service ∧
      b.actual_amount = a.actual_amount ∧ b.expected_amount = a.expected_amount ∧
      (a.id = targetId → b.acknowledged = true) ∧
      (a.id ≠ targetId → b = a)) := by
  refine ⟨List.length_map l _, ?_, ?_, ?_⟩
  · intro j a hj hne
    rw [acknowledgeLocal, List.getElem?_map, hj]
    simp [hne]
  · intro j a hj heq
    rw [acknowledgeLocal, List.getElem?_map, hj]
    simp [heq]
  · intro j a b hj hb
    rw [acknowledgeLocal, List.getElem?_map, hj] at hb
    have hb' : (if a.id = targetId then { a with acknowledged := true } else a) = b := by
      simpa using hb
    by_cases hid : a.id = targetId
    · rw [if_pos hid] at hb'
      subst hb'
      exact ⟨rfl, rfl, rfl, rfl, rfl, fun _ => rfl, fun hne => absurd hid hne⟩
    · rw [if_neg hid] at hb'
      subst hb'
      exact ⟨rfl, rfl, rfl, rfl, rfl, fun h => absurd h hid, fun _ => rfl⟩

/-- Witness for C9 on a concrete two-element anomaly list. -/
theorem acknowledge_frame_witness :
    (acknowledgeLocal [Anomaly.mk 1 "info" "ec2" false 10 5,
      Anomaly.mk 2 "critical" "s3" false 30 10] 2).length = 2 ∧
    (acknowledgeLocal [Anomaly.mk 1 "info" "ec2" false 10 5,
      Anomaly.mk 2 "critical" "s3" false 30 10] 2)[0]? =
      some (Anomaly.mk 1 "info" "ec2" false 10 5) ∧
    (acknowledgeLocal [Anomaly.mk 1 "info" "ec2" false 10 5,
      Anomaly.mk 2 "critical" "s3" false 30 10] 2)[1]? =
      some (Anomaly.mk 2 "critical" "s3" true 30 10) := by
  have h := acknowledge_frame [Anomaly.mk 1 "info" "ec2" false 10 5,
    Anomaly.mk 2 "critical" "s3" false 30 10] 2
  refine ⟨h.1.trans rfl, h.2.1 0 (Anomaly.mk 1 "info" "ec2" false 10 5) rfl (by decide),
    ?_⟩
  have := h.2.2.1 1 (Anomaly.mk 2 "critical" "s3" false 30 10) rfl rfl
  simpa using this

/-- A JSON value, as passed between the clients and the REST API. -/
inductive Json where
  | jnull
  | jbool (b : Bool)
  | jnum (n : ℚ)
  | jstr (s : String)
  | jarr (elems : List Json)
  | jobj (fields : List (String × Json))

mutual

/-- Model of the platform `JSON.stringify` on a JSON value (string escaping
and the pretty-printing indent of `JSON.stringify(x, null, 2)` are elided;
the claims use the serialization only as a function of the value). -/
def jsonStringify : Json → String
  | Json.jnull => "null"
  | Json.jbool true => "true"
  | Json.jbool false => "false"
  | Json.jnum n => toString n
  | Json.jstr s => "\"" ++ s ++ "\""
  | Json.jarr xs => "[" ++ jsonStringifyList xs ++ "]"
  | Json.jobj fs => "\x7b" ++ jsonStringifyFields fs ++ "\x7d"

/-- Comma-joined serialization of the elements of a JSON array. -/
def jsonStringifyList : List Json → String
  | [] => ""
  | [x] => jsonStringify x
  | x :: y :: t => jsonStringify x ++ "," ++ jsonStringifyList (y :: t)

/-- Comma-joined serialization of the fields of a JSON object. -/
def jsonStringifyFields : List (String × Json) → String
  | [] => ""
  | [(k, v)] => "\"" ++ k ++ "\":" ++ jsonStringify v
  | (k, v) :: f :: t =>
      "\"" ++ k ++ "\":" ++ jsonStringify v ++ "," ++ jsonStringifyFields (f :: t)

end

/-- The v1 base of the frontend api client. -/
def BASE_URL : String := "/api/v1"

/-- The v2 base of the frontend api client. -/
def V2_BASE_URL : String := "/api/v2"

/-- The request assembled by the frontend api client: method, URL and
JSON body. -/
structure FeRequest where
  method : String
  url : String
  body : Option Json

/-- The frontend api client's `request(endpoint, options, baseUrl)`: it
fetches `baseUrl + endpoint` with the method of the options (GET when
absent) and the body of the options. -/
def feRequest (endpoint : String) (methodOpt : Option String) (body : Option Json)
    (baseUrl : String) : FeRequest :=
  { method := methodOpt.getD "GET", url := baseUrl ++ endpoint, body := body }

/-- The frontend api client's `validateCQL(filter)`: a POST of the body
produced by `JSON.stringify` on an object with the single field `filter`
holding the given string, against the v2 base. -/
def validateCQL (filter : String) : FeRequest :=
  feRequest "/query/validate" (some "POST")
    (some (Json.jobj [("filter", Json.jstr filter)])) V2_BASE_URL

/-- Lookup of a property on the MCP tool arguments, modelling the
optional-chaining access `args?.key` (none both when args is absent and
when the key is missing). -/
def argGet (args : Option (List (String × Json))) (k : String) : Option Json :=
  args.bind (fun l => (l.find? (fun p => p.1 == k)).map (fun p => p.2))

/-- JavaScript truthiness of a possibly-absent JSON value, as tested by
`args?.workspace_token ? ... : ...`. -/
def jsTruthy : Option Json → Bool
  | none => false
  | some Json.jnull => false
  | some (Json.jbool b) => b
  | some (Json.jnum n) => decide (n ≠ 0)
  | some (Json.jstr s) => decide (s ≠ "")
  | some (Json.jarr _) => true
  | some (Json.jobj _) => true

/-- Template-literal coercion of a possibly-absent JSON value, as in
`/cost_reports/(dollar-brace)args?.token(brace)`.  It is exact on the
primitive values, the only ones the tool schemas send into the handler's
interpolations. -/
def jsTemplate : Option Json → String
  | none => "undefined"
  | some Json.jnull => "null"
  | some (Json.jbool true) => "true"
  | some (Json.jbool false) => "false"
  | some (Json.jnum n) => toString n
  | some (Json.jstr s) => s
  | some (Json.jarr _) => ""
  | some (Json.jobj _) => "[object Object]"

/-- The query-string suffix the MCP server appends to a list path:
present only when `args?.workspace_token` is truthy. -/
def wsQuerySuffix (args : Option (List (String × Json))) : String :=
  if jsTruthy (argGet args "workspace_token") then
    "?workspace_token=" ++ jsTemplate (argGet args "workspace_token")
  else ""

/-- The dispatch of the MCP server's CallTool handler (its switch over the
tool name, a chain of strict string comparisons): the method, path and
body handed to `apiRequest`, or none for an unknown tool. -/
def toolRoute (name : String) (args : Option (List (String × Json))) :
    Option (String × String × Option Json) :=
  if name = "list_workspaces" then some ("GET", "/workspaces", none)
  else if name = "list_cost_reports" then
    some ("GET", "/cost_reports" ++ wsQuerySuffix args, none)
  else if name = "get_cost_report" then
    some ("GET", "/cost_reports/" ++ jsTemplate (argGet args "token"), none)
  else if name = "create_cost_report" then
    some ("POST", "/cost_reports", args.map Json.jobj)
  else if name = "list_segments" then
    some ("GET", "/segments" ++ wsQuerySuffix args, none)
  else none

/-- The result object the CallTool handler returns: its text content and
its isError flag. -/
structure ToolResult where
  text : String
  isError : Bool
deriving DecidableEq, Repr

/-- The try-catch of the CallTool handler around the outcome of
`apiRequest` (ok with the parsed JSON, or error with the thrown message):
a success returns the JSON-stringified result, a caught error returns
isError true with the message after "Error: ". -/
def toolOutcome (r : Except String Json) : ToolResult :=
  match r with
  | Except.ok result => { text := jsonStringify result, isError := false }
  | Except.error msg => { text := "Error: " ++ msg, isError := true }

/-- The MCP server's CallTool handler: dispatch, then the try-catch
around `apiRequest` via `toolOutcome`. -/
def callToolHandler (name : String) (args : Option (List (String × Json)))
    (api : String → String → Option Json → Except String Json) : ToolResult :=
  match toolRoute name args with
  | none => { text := "Unknown tool: " ++ name, isError := true }
  | some (m, p, b) => toolOutcome (api m p b)

/-- C7: the client layer passes CQL filter strings through verbatim — the
frontend's validateCQL posts to /api/v2/query/validate a JSON object whose
single field filter holds the given string unchanged, and the MCP server's
create_cost_report tool forwards its arguments object, hence the given CQL
filter string, unchanged as the body of POST /cost_reports. -/
theorem cql_passthrough (filter : String) (args : List (String × Json)) :
    validateCQL filter =
      { method := "POST", url := "/api/v2/query/validate",
        body := some (Json.jobj [("filter", Json.jstr filter)]) } ∧
    toolRoute "create_cost_report" (some args) =
      some ("POST", "/cost_reports", some (Json.jobj args)) := by
  constructor
  · rfl
  · simp [toolRoute]

/-- C10 counterexample: when apiRequest fails, the handler's text is the
string "Error: " followed by the message, not the error's message itself. -/
theorem calltool_error_text_counterexample :
    callToolHandler "list_workspaces" none (fun _ _ _ => Except.error "boom") =
      { text := "Error: boom", isError := true } ∧
    ({ text := "Error: boom", isError := true } : ToolResult).text ≠ "boom" := by
  exact ⟨rfl, by decide⟩

/-- C10 (amended): the CallTool handler always returns a result object —
an unknown tool name (exactly one outside the five registered tools)
yields isError true with text "Unknown tool: " and the name, a failure of
apiRequest yields isError true with "Error: " followed by the error's
message as text, and a success returns the JSON-stringified API result as
text. -/
theorem calltool_handler_shape (name : String) (args : Option (List (String × Json)))
    (api : String → String → Option Json → Except String Json) :
    (toolRoute name args = none →
      callToolHandler name args api =
        { text := "Unknown tool: " ++ name, isError := true }) ∧
    (∀ m p b, toolRoute name args = some (m, p, b) →
      (∀ msg, api m p b = Except.error msg →
        callToolHandler name args api = { text := "Error: " ++ msg, isError := true }) ∧
      (∀ j, api m p b = Except.ok j →
        callToolHandler name args api = { text := jsonStringify j, isError := false })) ∧
    (toolRoute name args = none ↔
      name ∉ ["list_workspaces", "list_cost_reports", "get_cost_report",
        "create_cost_report", "list_segments"]) := by
  refine ⟨?_, ?_, ?_⟩
  · intro h
    unfold callToolHandler
    rw [h]
  · intro m p b h
    constructor
    · intro msg hmsg
      unfold callToolHandler
      rw [h]
      show toolOutcome (api m p b) = _
      rw [hmsg]
      rfl
    · intro j hj
      unfold callToolHandler
      rw [h]
      show toolOutcome (api m p b) = _
      rw [hj]
      rfl
  · by_cases h1 : name = "list_workspaces"
    · simp [toolRoute, h1]
    · by_cases h2 : name = "list_cost_reports"
      · simp [toolRoute, h1, h2]
      · by_cases h3 : name = "get_cost_report"
        · simp [toolRoute, h1, h2, h3]
        · by_cases h4 : name = "create_cost_report"
          · simp [toolRoute, h1, h2, h3, h4]
          · by_cases h5 : name = "list_segments"
            · simp [toolRoute, h1, h2, h3, h4, h5]
            · simp [toolRoute, h1, h2, h3, h4, h5]

/-- Witness for C10's amended theorem, on an unknown tool and on a
successful list_workspaces call. -/
theorem calltool_handler_shape_witness :
    callToolHandler "frobnicate" none (fun _ _ _ => Except.ok Json.jnull) =
      { text := "Unknown tool: frobnicate", isError := true } ∧
    callToolHandler "list_workspaces" none (fun _ _ _ => Except.ok (Json.jstr "ok")) =
      { text := jsonStringify (Json.jstr "ok"), isError := false } := by
  have h1 := (calltool_handler_shape "frobnicate" none
    (fun _ _ _ => Except.ok Json.jnull)).1 (by simp [toolRoute])
  have h2 := ((calltool_handler_shape "list_workspaces" none
    (fun _ _ _ => Except.ok (Json.jstr "ok"))).2.1 "GET" "/workspaces" none
      (by simp [toolRoute])).2 (Json.jstr "ok") rfl
  exact ⟨h1, h2⟩

end CloudPulse
